import Mathlib

/-!
# A verification development for the LLM-SE benchmarking toolkit

Shallow embedding of the behaviourally relevant parts of the repository:

* `llm_benchmark.py` — `LMStudioClient.__init__` / `_get_available_model` /
  `send_request` and the record each request produces;
* `lm_studio_manager.py` — `LMStudioManager.check_server`, `list_models`,
  `get_loaded_model`;
* `analyze_local_client.py` — the aggregator grouping successful records and
  computing per-group token statistics;
* `analysis.py` — the telemetry correlator: window restriction of the CSV
  series and the nearest-timestamp lookup (`idxmin` over absolute
  differences).

Machine reals used only as exact data (token counts, rational time values);
timestamps are modelled as integers (e.g. nanoseconds since an epoch), and
the `datetime`/`NaT` column of the CSV as `Option ℤ` (`none` is a timestamp
that failed to parse, pandas `NaT`).
-/

namespace LLMSE

/-- Token usage counters from the `usage` object of the chat-completion
response body; each counter is read with `.get(..., None)` and may be
absent. -/
structure Usage where
  prompt_tokens : Option Nat
  completion_tokens : Option Nat
  total_tokens : Option Nat
deriving Repr, DecidableEq

/-- Outcome of the single HTTP POST issued by `send_request`.

* `ok content usage` — a 2xx response whose body parsed and contained
  `choices[0].message.content` (which JSON allows to be `null`, modelled by
  `content = none`) and a `usage` object;
* `timeout` — `requests.exceptions.Timeout` was raised;
* `exn msg` — any other exception (connection error, `raise_for_status` on a
  non-2xx code, malformed body such as a missing `choices` key), carrying
  `str(e)`. -/
inductive HttpResult where
  | ok (content : Option String) (usage : Usage)
  | timeout
  | exn (msg : String)
deriving Repr, DecidableEq

/-- The record dictionary built by `LMStudioClient.send_request`
(fields exactly as in `llm_benchmark.py`, lines 67–123). -/
structure RequestRecord where
  timestamp_send : String
  timestamp_response : String
  elapsed_time_seconds : ℚ
  prompt : String
  response : Option String
  prompt_length_chars : Nat
  response_length_chars : Nat
  prompt_tokens : Option Nat
  completion_tokens : Option Nat
  total_tokens : Option Nat
  max_tokens_requested : Nat
  temperature : ℚ
  model : String
  status : String
deriving Repr, DecidableEq

/-- `LMStudioClient.send_request`.  The wall clock is abstracted into the two
ISO timestamps and the elapsed seconds, which the code reads off the clock in
whichever branch it ends in.  The HTTP layer is abstracted as `attempt`,
mapping the ordinal of each request the function might issue to its outcome;
the source issues a single `requests.post`, so only `attempt 0` is consulted.

A success body whose `content` is JSON `null` makes `len(response_text)`
raise `TypeError` inside the `try`, which the generic `except Exception`
handler turns into an `error:` record (the Python message quotes the type
name; the quotes are immaterial here). -/
def send_request (model prompt : String) (max_tokens : Nat) (temperature : ℚ)
    (timestamp_send timestamp_response : String) (elapsed : ℚ)
    (attempt : Nat → HttpResult) : RequestRecord :=
  match attempt 0 with
  | .ok (some text) usage =>
      { timestamp_send := timestamp_send
        timestamp_response := timestamp_response
        elapsed_time_seconds := elapsed
        prompt := prompt
        response := some text
        prompt_length_chars := prompt.length
        response_length_chars := text.length
        prompt_tokens := usage.prompt_tokens
        completion_tokens := usage.completion_tokens
        total_tokens := usage.total_tokens
        max_tokens_requested := max_tokens
        temperature := temperature
        model := model
        status := "success" }
  | .ok none _ =>
      { timestamp_send := timestamp_send
        timestamp_response := timestamp_response
        elapsed_time_seconds := elapsed
        prompt := prompt
        response := none
        prompt_length_chars := prompt.length
        response_length_chars := 0
        prompt_tokens := none
        completion_tokens := none
        total_tokens := none
        max_tokens_requested := max_tokens
        temperature := temperature
        model := model
        status := "error: object of type NoneType has no len()" }
  | .timeout =>
      { timestamp_send := timestamp_send
        timestamp_response := timestamp_response
        elapsed_time_seconds := elapsed
        prompt := prompt
        response := none
        prompt_length_chars := prompt.length
        response_length_chars := 0
        prompt_tokens := none
        completion_tokens := none
        total_tokens := none
        max_tokens_requested := max_tokens
        temperature := temperature
        model := model
        status := "timeout" }
  | .exn msg =>
      { timestamp_send := timestamp_send
        timestamp_response := timestamp_response
        elapsed_time_seconds := elapsed
        prompt := prompt
        response := none
        prompt_length_chars := prompt.length
        response_length_chars := 0
        prompt_tokens := none
        completion_tokens := none
        total_tokens := none
        max_tokens_requested := max_tokens
        temperature := temperature
        model := model
        status := "error: " ++ msg }

/-- An `"error: ..."` status is never the literal `"success"`. -/
theorem error_status_ne_success (msg : String) : "error: " ++ msg ≠ "success" := by
  intro h
  cases msg with
  | mk d =>
    have hd := congrArg String.data h
    simp [String.append] at hd

/-- C1: for every record returned by `send_request` — success, timeout or any
other failure — `status = "success"` holds iff the `response` field is
present, and a non-`"success"` status implies both `response` and
`total_tokens` are `None`. -/
theorem send_request_status_iff_response (model prompt : String) (mt : Nat)
    (temp : ℚ) (ts tr : String) (el : ℚ) (attempt : Nat → HttpResult) :
    ((send_request model prompt mt temp ts tr el attempt).status = "success"
        ↔ ((send_request model prompt mt temp ts tr el attempt).response).isSome)
    ∧ ((send_request model prompt mt temp ts tr el attempt).status ≠ "success"
        → (send_request model prompt mt temp ts tr el attempt).response = none
          ∧ (send_request model prompt mt temp ts tr el attempt).total_tokens = none) := by
  unfold send_request
  cases attempt 0 with
  | ok content usage =>
      cases content with
      | some text => simp
      | none => simp
  | timeout => simp
  | exn msg =>
      refine ⟨⟨fun h => absurd h (error_status_ne_success msg), fun h => by simp at h⟩, ?_⟩
      exact fun _ => ⟨rfl, rfl⟩

/-- Witness for C1 at a concrete timeout outcome. -/
theorem send_request_status_iff_response_witness :
    (send_request "m" "p" 5 1 "t0" "t1" 2 (fun _ => HttpResult.timeout)).response = none
      ∧ (send_request "m" "p" 5 1 "t0" "t1" 2 (fun _ => HttpResult.timeout)).total_tokens
          = none :=
  (send_request_status_iff_response "m" "p" 5 1 "t0" "t1" 2
    (fun _ => HttpResult.timeout)).2 (by decide)

/-- C8: a timeout yields `status = "timeout"`, any other failure yields
`status = "error: <description>"`, and no retry is attempted: the record
depends only on the outcome of the first (and only) request issued. -/
theorem send_request_failure_statuses (model prompt : String) (mt : Nat)
    (temp : ℚ) (ts tr : String) (el : ℚ) (attempt attempt2 : Nat → HttpResult) :
    (attempt 0 = HttpResult.timeout
        → (send_request model prompt mt temp ts tr el attempt).status = "timeout")
    ∧ (∀ msg, attempt 0 = HttpResult.exn msg
        → (send_request model prompt mt temp ts tr el attempt).status = "error: " ++ msg)
    ∧ (attempt 0 = attempt2 0
        → send_request model prompt mt temp ts tr el attempt
            = send_request model prompt mt temp ts tr el attempt2) := by
  refine ⟨fun h => ?_, fun msg h => ?_, fun h => ?_⟩
  · unfold send_request
    rw [h]
  · unfold send_request
    rw [h]
  · unfold send_request
    rw [h]

/-- Witness for C8 at a concrete error outcome. -/
theorem send_request_failure_statuses_witness :
    (send_request "m" "p" 5 1 "t0" "t1" 2 (fun _ => HttpResult.exn "boom")).status
        = "error: " ++ "boom"
      ∧ send_request "m" "p" 5 1 "t0" "t1" 2 (fun _ => HttpResult.exn "boom")
          = send_request "m" "p" 5 1 "t0" "t1" 2
              (fun n => if n = 0 then HttpResult.exn "boom" else HttpResult.timeout) :=
  ⟨(send_request_failure_statuses "m" "p" 5 1 "t0" "t1" 2 (fun _ => HttpResult.exn "boom")
      (fun _ => HttpResult.exn "boom")).2.1 "boom" rfl,
   (send_request_failure_statuses "m" "p" 5 1 "t0" "t1" 2 (fun _ => HttpResult.exn "boom")
      (fun n => if n = 0 then HttpResult.exn "boom" else HttpResult.timeout)).2.2 rfl⟩

/-- C9: `send_request` is total — in every branch it returns a full
`RequestRecord` (all fourteen fields of the structure), with
`prompt_length_chars` equal to the length of the input prompt and the request
parameters copied through unchanged. -/
theorem send_request_total_fixed_fields (model prompt : String) (mt : Nat)
    (temp : ℚ) (ts tr : String) (el : ℚ) (attempt : Nat → HttpResult) :
    (send_request model prompt mt temp ts tr el attempt).prompt_length_chars = prompt.length
    ∧ (send_request model prompt mt temp ts tr el attempt).prompt = prompt
    ∧ (send_request model prompt mt temp ts tr el attempt).model = model
    ∧ (send_request model prompt mt temp ts tr el attempt).max_tokens_requested = mt
    ∧ (send_request model prompt mt temp ts tr el attempt).temperature = temp
    ∧ (send_request model prompt mt temp ts tr el attempt).timestamp_send = ts
    ∧ (send_request model prompt mt temp ts tr el attempt).timestamp_response = tr
    ∧ (send_request model prompt mt temp ts tr el attempt).elapsed_time_seconds = el := by
  unfold send_request
  cases attempt 0 with
  | ok content usage =>
      cases content with
      | some text => exact ⟨rfl, rfl, rfl, rfl, rfl, rfl, rfl, rfl⟩
      | none => exact ⟨rfl, rfl, rfl, rfl, rfl, rfl, rfl, rfl⟩
  | timeout => exact ⟨rfl, rfl, rfl, rfl, rfl, rfl, rfl, rfl⟩
  | exn msg => exact ⟨rfl, rfl, rfl, rfl, rfl, rfl, rfl, rfl⟩

/-- One entry of the `data` array returned by `GET /v1/models`; the `id` key
is read with dictionary access and may be missing (`.get('id')` in
`lm_studio_manager.py`, bracket access in `llm_benchmark.py`, whose `KeyError`
is caught by the surrounding handler). -/
structure ModelEntry where
  id : Option String
deriving Repr, DecidableEq

/-- A completed HTTP exchange with the model-listing endpoint: status code
plus the parsed `data` array (default `[]` when the key is absent). -/
structure ModelsResponse where
  status_code : Nat
  data : List ModelEntry
deriving Repr, DecidableEq

/-- Outcome of `requests.get(models_endpoint)`: either an exchange completed
(any status code) or a `RequestException` was raised (connection failure,
timeout), carrying its message. -/
def ModelsOutcome := Except String ModelsResponse

/-- `LMStudioClient._get_available_model`: `raise_for_status` (which raises
exactly for status codes 400–599), a raised exception, an empty model list,
or a first entry without an `id` key all fall back to the literal
`"local-model"`; otherwise the first entry's id is returned. -/
def get_available_model (resp : ModelsOutcome) : String :=
  match resp with
  | .error _ => "local-model"
  | .ok r =>
      if 400 ≤ r.status_code ∧ r.status_code < 600 then "local-model"
      else
        match r.data with
        | [] => "local-model"
        | m :: _ =>
            match m.id with
            | some name => name
            | none => "local-model"

/-- `LMStudioClient.__init__`: `self.model = model or self._get_available_model()`.
Python `or` takes the fallback when `model` is `None` or the empty string. -/
def init_model (model : Option String) (resp : ModelsOutcome) : String :=
  match model with
  | some s => if s = "" then get_available_model resp else s
  | none => get_available_model resp

/-- The JSON payload `send_request` posts to the chat-completion endpoint. -/
structure Payload where
  model : String
  content : String
  temperature : ℚ
  max_tokens : Nat
  stream : Bool
deriving Repr, DecidableEq

/-- Payload construction in `send_request` (lines 39–47): the `model` field
is always `self.model`, i.e. the value fixed at construction time. -/
def mk_payload (model prompt : String) (max_tokens : Nat) (temperature : ℚ) : Payload :=
  { model := model
    content := prompt
    temperature := temperature
    max_tokens := max_tokens
    stream := false }

/-- C10: constructing a client without an explicit model identifier, when the
model-listing call fails (a raised exception, or the `HTTPError` that
`raise_for_status` raises for status codes 400–599) or returns an empty
list, silently falls back to the literal `"local-model"`, which is then the
`model` field of every subsequent request payload; construction is total, so
no error is raised. -/
theorem init_model_fallback_local_model :
    (∀ e : String, init_model none (Except.error e) = "local-model")
    ∧ (∀ code : Nat, ∀ d : List ModelEntry, 400 ≤ code → code < 600
        → init_model none (Except.ok ⟨code, d⟩) = "local-model")
    ∧ (∀ code : Nat,
        init_model none (Except.ok ⟨code, []⟩) = "local-model")
    ∧ (∀ resp : ModelsOutcome, ∀ prompt : String, ∀ mt : Nat, ∀ temp : ℚ,
        (mk_payload (init_model none resp) prompt mt temp).model = init_model none resp) := by
  refine ⟨fun e => rfl, fun code d h4 h6 => ?_, fun code => ?_,
    fun resp prompt mt temp => rfl⟩
  · simp [init_model, get_available_model, h4, h6]
  · by_cases hc : 400 ≤ code ∧ code < 600
    · simp [init_model, get_available_model, hc]
    · simp [init_model, get_available_model, hc]

/-- Witness for C10 at a concrete failed listing and a concrete empty list. -/
theorem init_model_fallback_local_model_witness :
    init_model none (Except.ok ⟨500, [⟨some "resident"⟩]⟩) = "local-model"
      ∧ init_model none (Except.ok ⟨200, []⟩) = "local-model" :=
  ⟨init_model_fallback_local_model.2.1 500 [⟨some "resident"⟩] (by decide) (by decide),
   init_model_fallback_local_model.2.2.1 200⟩

/-- `LMStudioManager.check_server`: `True` iff the call completed with status
code 200; a raised `RequestException` is caught and mapped to `False`. -/
def check_server (resp : ModelsOutcome) : Bool :=
  match resp with
  | .error _ => false
  | .ok r => r.status_code == 200

/-- `LMStudioManager.list_models`: the `data` array on a completed call that
passes `raise_for_status`, and `[]` when the call raises (including the
`HTTPError` that `raise_for_status` raises exactly for status codes
400–599). -/
def list_models (resp : ModelsOutcome) : List ModelEntry :=
  match resp with
  | .error _ => []
  | .ok r => if 400 ≤ r.status_code ∧ r.status_code < 600 then [] else r.data

/-- `LMStudioManager.get_loaded_model`: the `id` of the first listed entry,
or `None` when the list is empty. -/
def get_loaded_model (resp : ModelsOutcome) : Option String :=
  match list_models resp with
  | [] => none
  | m :: _ => m.id

/-- C7: `check_server` returns `true` exactly when the HTTP call to the
model-listing endpoint completes with status 200 (connection failure maps to
`false`, no exception propagating), and `get_loaded_model` returns the id of
the first entry of the model list, or `None` when the list is empty; in
particular for the response `{"data": []}` with status 200,
`get_loaded_model` is `None` while `check_server` is still `true`. -/
theorem check_server_iff_200_and_first_model :
    (∀ resp : ModelsOutcome,
        check_server resp = true
          ↔ ∃ code : Nat, ∃ d : List ModelEntry, resp = Except.ok ⟨code, d⟩ ∧ code = 200)
    ∧ (∀ code : Nat, ∀ m : ModelEntry, ∀ ms : List ModelEntry, code < 400
        → get_loaded_model (Except.ok ⟨code, m :: ms⟩) = m.id)
    ∧ (∀ code : Nat, get_loaded_model (Except.ok ⟨code, []⟩) = none)
    ∧ get_loaded_model (Except.ok ⟨200, []⟩) = none
    ∧ check_server (Except.ok ⟨200, []⟩) = true := by
  refine ⟨fun resp => ?_, fun code m ms h => ?_, fun code => ?_, rfl, rfl⟩
  · constructor
    · intro h
      match resp with
      | .error e => simp [check_server] at h
      | .ok r =>
          refine ⟨r.status_code, r.data, rfl, ?_⟩
          simpa [check_server] using h
    · rintro ⟨code, d, rfl, rfl⟩
      rfl
  · have h2 : ¬(400 ≤ code ∧ code < 600) := fun hc => absurd hc.1 (Nat.not_le.mpr h)
    simp [get_loaded_model, list_models, h2]
  · by_cases hc : 400 ≤ code ∧ code < 600
    · simp [get_loaded_model, list_models, hc]
    · simp [get_loaded_model, list_models, hc]

/-- Witness for C7: a loaded first model at status 200, read off through the
theorem itself. -/
theorem check_server_iff_200_and_first_model_witness :
    get_loaded_model (Except.ok ⟨200, [⟨some "qwen"⟩, ⟨some "other"⟩]⟩) = some "qwen" :=
  check_server_iff_200_and_first_model.2.1 200 ⟨some "qwen"⟩ [⟨some "other"⟩] (by decide)

/-- What `analyze_local_client_results` reads from one entry of a run file's
`results` array: `status`, the experiment metadata keys `size_category` and
`size_words` (read with `.get`, hence optional) and `total_tokens`. -/
structure ResultRow where
  status : String
  size_category : Option String
  size_words : Option Nat
  total_tokens : Option Nat
deriving Repr, DecidableEq

/-- The token a row contributes to the group keyed `k`: only rows with
`status == 'success'`, both `size_words` and `total_tokens` present, and
`size_words = k` contribute (lines 48–54 of `analyze_local_client.py`). -/
def row_token_for (k : Nat) (r : ResultRow) : Option Nat :=
  if r.status = "success" then
    match r.size_words, r.total_tokens with
    | some sw, some t => if sw = k then some t else none
    | _, _ => none
  else none

/-- `tokens_by_size[k]`: the tokens appended for key `k`, in input order. -/
def tokens_for_size (rows : List ResultRow) (k : Nat) : List Nat :=
  rows.filterMap (row_token_for k)

/-- The key a row contributes to `tokens_by_size` (the `defaultdict` only
acquires a key when a token is appended under it). -/
def contributed_key (r : ResultRow) : Option Nat :=
  if r.status = "success" then
    match r.size_words, r.total_tokens with
    | some sw, some _ => some sw
    | _, _ => none
  else none

/-- The keys of `tokens_by_size`, first-appended first, without repetition. -/
def size_keys (rows : List ResultRow) : List Nat :=
  (rows.filterMap contributed_key).dedup

/-- Python `min` over a list (we only need its value, which on a total order
does not depend on how ties pick a representative). -/
def pymin : List Nat → Option Nat
  | [] => none
  | x :: xs => some (xs.foldl min x)

/-- Python `max` over a list. -/
def pymax : List Nat → Option Nat
  | [] => none
  | x :: xs => some (xs.foldl max x)

/-- Insertion step of a stable ascending sort, modelling Python `sorted`. -/
def insert_sorted (x : Nat) : List Nat → List Nat
  | [] => [x]
  | y :: ys => if x ≤ y then x :: y :: ys else y :: insert_sorted x ys

/-- `sorted(...)` over the group keys. -/
def sort_keys (l : List Nat) : List Nat := l.foldr insert_sorted []

/-- Per-group summary printed by the aggregator: number of samples, mean
(`sum(tokens) / len(tokens)`), minimum and maximum of `total_tokens`. -/
structure GroupStats where
  size_words : Nat
  count : Nat
  mean : ℚ
  minTokens : Option Nat
  maxTokens : Option Nat
deriving Repr, DecidableEq

/-- The statistics the aggregator computes for the group keyed `k`. -/
def group_stats (rows : List ResultRow) (k : Nat) : GroupStats :=
  { size_words := k
    count := (tokens_for_size rows k).length
    mean := ((tokens_for_size rows k).sum : ℚ) / ((tokens_for_size rows k).length : ℚ)
    minTokens := pymin (tokens_for_size rows k)
    maxTokens := pymax (tokens_for_size rows k) }

/-- `analyze_local_client_results` (lines 48–77): group the success rows'
`total_tokens` by `size_words`, then report the groups in ascending key
order. -/
def analyze_local_client_results (rows : List ResultRow) : List GroupStats :=
  (sort_keys (size_keys rows)).map (group_stats rows)

/-- Follows the spec's words (spec §4.4 groups "by the size-category label"):
the tokens of success rows whose `size_category` equals the label `lbl`,
skipping rows without `total_tokens`.  Written to be compared with the
source-derived grouping by `size_words`. -/
def tokens_for_label (rows : List ResultRow) (lbl : String) : List Nat :=
  rows.filterMap fun r =>
    if r.status = "success" then
      match r.size_category, r.total_tokens with
      | some c, some t => if c = lbl then some t else none
      | _, _ => none
    else none

theorem insert_sorted_perm (x : Nat) (l : List Nat) :
    (insert_sorted x l).Perm (x :: l) := by
  induction l with
  | nil => simp [insert_sorted]
  | cons y ys ih =>
      by_cases h : x ≤ y
      · simp [insert_sorted, h]
      · simp only [insert_sorted, if_neg h]
        exact (ih.cons y).trans (List.Perm.swap x y ys)

theorem sort_keys_perm (l : List Nat) : (sort_keys l).Perm l := by
  induction l with
  | nil => simp [sort_keys]
  | cons a l ih =>
      exact (insert_sorted_perm a (sort_keys l)).trans (ih.cons a)

theorem mem_insert_sorted {a x : Nat} {l : List Nat} :
    a ∈ insert_sorted x l ↔ a = x ∨ a ∈ l := by
  rw [(insert_sorted_perm x l).mem_iff]
  simp

theorem sorted_insert_sorted (x : Nat) (l : List Nat)
    (h : l.Sorted (· ≤ ·)) : (insert_sorted x l).Sorted (· ≤ ·) := by
  induction l with
  | nil => simp [insert_sorted]
  | cons y ys ih =>
      rw [List.sorted_cons] at h
      by_cases hx : x ≤ y
      · rw [insert_sorted, if_pos hx, List.sorted_cons]
        refine ⟨?_, List.sorted_cons.mpr h⟩
        intro b hb
        rcases List.mem_cons.mp hb with rfl | hb
        · exact hx
        · exact hx.trans (h.1 b hb)
      · rw [insert_sorted, if_neg hx, List.sorted_cons]
        refine ⟨?_, ih h.2⟩
        intro b hb
        rcases mem_insert_sorted.mp hb with rfl | hb
        · exact le_of_lt (Nat.lt_of_not_le hx)
        · exact h.1 b hb

theorem sort_keys_sorted (l : List Nat) : (sort_keys l).Sorted (· ≤ ·) := by
  induction l with
  | nil => simp [sort_keys]
  | cons a l ih => exact sorted_insert_sorted a (sort_keys l) ih

theorem foldl_min_mem (a : Nat) (t : List Nat) : t.foldl min a ∈ a :: t := by
  induction t generalizing a with
  | nil => simp
  | cons b t ih =>
      simp only [List.foldl]
      have h := ih (min a b)
      rcases List.mem_cons.mp h with h1 | h1
      · rw [h1]
        rcases min_choice a b with h2 | h2 <;> rw [h2] <;> simp
      · simp [h1]

theorem foldl_min_le (a : Nat) (t : List Nat) :
    ∀ x ∈ a :: t, t.foldl min a ≤ x := by
  induction t generalizing a with
  | nil =>
      intro x hx
      have hx2 : x = a := by simpa using hx
      subst hx2
      exact Nat.le_refl _
  | cons b t ih =>
      intro x hx
      have hmin : List.foldl min (min a b) t ≤ min a b :=
        ih (min a b) (min a b) (List.mem_cons_self _ _)
      simp only [List.foldl]
      rcases List.mem_cons.mp hx with h1 | h1
      · subst h1
        exact Nat.le_trans hmin (Nat.min_le_left _ b)
      rcases List.mem_cons.mp h1 with h2 | h2
      · subst h2
        exact Nat.le_trans hmin (Nat.min_le_right a _)
      · exact ih (min a b) x (List.mem_cons.mpr (Or.inr h2))

theorem foldl_max_mem (a : Nat) (t : List Nat) : t.foldl max a ∈ a :: t := by
  induction t generalizing a with
  | nil => simp
  | cons b t ih =>
      simp only [List.foldl]
      have h := ih (max a b)
      rcases List.mem_cons.mp h with h1 | h1
      · rw [h1]
        rcases max_choice a b with h2 | h2 <;> rw [h2] <;> simp
      · simp [h1]

theorem le_foldl_max (a : Nat) (t : List Nat) :
    ∀ x ∈ a :: t, x ≤ t.foldl max a := by
  induction t generalizing a with
  | nil =>
      intro x hx
      have hx2 : x = a := by simpa using hx
      subst hx2
      exact Nat.le_refl _
  | cons b t ih =>
      intro x hx
      have hmax : max a b ≤ List.foldl max (max a b) t :=
        ih (max a b) (max a b) (List.mem_cons_self _ _)
      simp only [List.foldl]
      rcases List.mem_cons.mp hx with h1 | h1
      · subst h1
        exact Nat.le_trans (Nat.le_max_left _ b) hmax
      rcases List.mem_cons.mp h1 with h2 | h2
      · subst h2
        exact Nat.le_trans (Nat.le_max_right a _) hmax
      · exact ih (max a b) x (List.mem_cons.mpr (Or.inr h2))

theorem pymin_mem_and_le {l : List Nat} {m : Nat} (h : pymin l = some m) :
    m ∈ l ∧ ∀ x ∈ l, m ≤ x := by
  match l with
  | [] => simp [pymin] at h
  | a :: t =>
      rw [pymin, Option.some_inj] at h
      subst h
      exact ⟨foldl_min_mem a t, foldl_min_le a t⟩

theorem pymax_mem_and_ge {l : List Nat} {m : Nat} (h : pymax l = some m) :
    m ∈ l ∧ ∀ x ∈ l, x ≤ m := by
  match l with
  | [] => simp [pymax] at h
  | a :: t =>
      rw [pymax, Option.some_inj] at h
      subst h
      exact ⟨foldl_max_mem a t, le_foldl_max a t⟩

theorem pymin_perm {l l2 : List Nat} (h : l.Perm l2) : pymin l = pymin l2 := by
  match l, l2 with
  | [], l2 =>
      rw [h.nil_eq]
  | a :: t, [] => exact absurd h.symm.nil_eq (by simp)
  | a :: t, b :: t2 =>
      obtain ⟨m, hm⟩ : ∃ m, pymin (a :: t) = some m := ⟨_, rfl⟩
      obtain ⟨m2, hm2⟩ : ∃ m2, pymin (b :: t2) = some m2 := ⟨_, rfl⟩
      obtain ⟨hmem, hle⟩ := pymin_mem_and_le hm
      obtain ⟨hmem2, hle2⟩ := pymin_mem_and_le hm2
      rw [hm, hm2, Option.some_inj]
      exact Nat.le_antisymm (hle m2 (h.symm.subset hmem2)) (hle2 m (h.subset hmem))

theorem pymax_perm {l l2 : List Nat} (h : l.Perm l2) : pymax l = pymax l2 := by
  match l, l2 with
  | [], l2 =>
      rw [h.nil_eq]
  | a :: t, [] => exact absurd h.symm.nil_eq (by simp)
  | a :: t, b :: t2 =>
      obtain ⟨m, hm⟩ : ∃ m, pymax (a :: t) = some m := ⟨_, rfl⟩
      obtain ⟨m2, hm2⟩ : ∃ m2, pymax (b :: t2) = some m2 := ⟨_, rfl⟩
      obtain ⟨hmem, hge⟩ := pymax_mem_and_ge hm
      obtain ⟨hmem2, hge2⟩ := pymax_mem_and_ge hm2
      rw [hm, hm2, Option.some_inj]
      exact Nat.le_antisymm (hge2 m (h.subset hmem)) (hge m2 (h.symm.subset hmem2))

theorem contributed_key_iff {r : ResultRow} {k : Nat} :
    contributed_key r = some k ↔ ∃ t, row_token_for k r = some t := by
  unfold contributed_key row_token_for
  by_cases hs : r.status = "success"
  · simp only [if_pos hs]
    cases hsw : r.size_words with
    | none => simp
    | some sw =>
        cases htt : r.total_tokens with
        | none => simp
        | some t =>
            by_cases hk : sw = k
            · simp [hk]
            · simp [hk]
  · simp [hs]

theorem mem_size_keys_iff {rows : List ResultRow} {k : Nat} :
    k ∈ size_keys rows ↔ tokens_for_size rows k ≠ [] := by
  rw [size_keys, List.mem_dedup, List.mem_filterMap]
  constructor
  · rintro ⟨r, hr, hck⟩
    obtain ⟨t, ht⟩ := contributed_key_iff.mp hck
    intro hnil
    have hmem : t ∈ tokens_for_size rows k := List.mem_filterMap.mpr ⟨r, hr, ht⟩
    rw [hnil] at hmem
    simp at hmem
  · intro hne
    obtain ⟨t, ht⟩ := List.exists_mem_of_ne_nil _ hne
    obtain ⟨r, hr, hrt⟩ := List.mem_filterMap.mp ht
    exact ⟨r, hr, contributed_key_iff.mpr ⟨t, hrt⟩⟩

/-- The two-record input refuting grouping by the size-category label: two
successful records with distinct labels but the same `size_words` value. -/
def exRows : List ResultRow :=
  [{ status := "success", size_category := some "short",
     size_words := some 100, total_tokens := some 10 },
   { status := "success", size_category := some "medium",
     size_words := some 100, total_tokens := some 20 }]

/-- C5 counterexample: on `exRows` the aggregator emits a single group of
count 2 (mean 15, min 10, max 20) keyed by the numeric `size_words` value
100, even though the two records carry distinct size-category labels, each
label covering exactly one token-bearing record — so the aggregator does not
group by the size-category label. -/
theorem aggregator_label_grouping_counterexample :
    analyze_local_client_results exRows = [group_stats exRows 100]
    ∧ (group_stats exRows 100).count = 2
    ∧ (group_stats exRows 100).mean = 15
    ∧ (group_stats exRows 100).minTokens = some 10
    ∧ (group_stats exRows 100).maxTokens = some 20
    ∧ (tokens_for_label exRows "short").length = 1
    ∧ (tokens_for_label exRows "medium").length = 1 := by
  refine ⟨rfl, rfl, ?_, rfl, rfl, rfl, rfl⟩
  show ((tokens_for_size exRows 100).sum : ℚ) / ((tokens_for_size exRows 100).length : ℚ) = 15
  have htk : tokens_for_size exRows 100 = [10, 20] := rfl
  rw [htk]
  norm_num

/-- C5 (amended): the aggregator considers only records with
`status = "success"`, groups them by the numeric size-in-words value
(`size_words`) rather than the size-category label, computes per-group count,
mean, min and max of `total_tokens` while skipping records whose
`total_tokens` is absent, and omits a group with no token-bearing records
from the output entirely, so every reported group has positive count and no
division by zero occurs. -/
theorem aggregator_by_size_words_stats (rows : List ResultRow) :
    (∀ s ∈ analyze_local_client_results rows,
        0 < s.count
        ∧ s.count = (tokens_for_size rows s.size_words).length
        ∧ s.mean = ((tokens_for_size rows s.size_words).sum : ℚ)
            / ((tokens_for_size rows s.size_words).length : ℚ)
        ∧ s.minTokens = pymin (tokens_for_size rows s.size_words)
        ∧ s.maxTokens = pymax (tokens_for_size rows s.size_words))
    ∧ (∀ k : Nat, (tokens_for_size rows k ≠ []
        ↔ ∃ s ∈ analyze_local_client_results rows, s.size_words = k))
    ∧ (∀ k : Nat, ∀ t : Nat, t ∈ tokens_for_size rows k
        → ∃ r ∈ rows, r.status = "success" ∧ r.size_words = some k
            ∧ r.total_tokens = some t) := by
  refine ⟨?_, ?_, ?_⟩
  · intro s hs
    obtain ⟨k, hk, rfl⟩ := List.mem_map.mp hs
    have hk2 : k ∈ size_keys rows := (sort_keys_perm _).subset hk
    have hne : tokens_for_size rows k ≠ [] := mem_size_keys_iff.mp hk2
    exact ⟨List.length_pos.mpr hne, rfl, rfl, rfl, rfl⟩
  · intro k
    constructor
    · intro hne
      have hk : k ∈ sort_keys (size_keys rows) :=
        (sort_keys_perm _).symm.subset (mem_size_keys_iff.mpr hne)
      exact ⟨group_stats rows k, List.mem_map_of_mem _ hk, rfl⟩
    · rintro ⟨s, hs, hsk⟩
      obtain ⟨k2, hk2, rfl⟩ := List.mem_map.mp hs
      have hkk : k2 = k := hsk
      subst hkk
      exact mem_size_keys_iff.mp ((sort_keys_perm _).subset hk2)
  · intro k t ht
    obtain ⟨r, hr, hrt⟩ := List.mem_filterMap.mp ht
    refine ⟨r, hr, ?_⟩
    unfold row_token_for at hrt
    by_cases hs : r.status = "success"
    · rw [if_pos hs] at hrt
      cases hsw : r.size_words with
      | none => rw [hsw] at hrt; simp at hrt
      | some sw =>
          cases htt : r.total_tokens with
          | none => rw [hsw, htt] at hrt; simp at hrt
          | some t2 =>
              rw [hsw, htt] at hrt
              have hrt2 : (if sw = k then some t2 else none) = some t := hrt
              by_cases hk : sw = k
              · rw [if_pos hk] at hrt2
                exact ⟨hs, by rw [hk], hrt2⟩
              · rw [if_neg hk] at hrt2
                simp at hrt2
    · rw [if_neg hs] at hrt
      simp at hrt

/-- Witness for C5's amended theorem: the group keyed 100 exists on the
two-record input because its token list is non-empty. -/
theorem aggregator_by_size_words_stats_witness :
    ∃ s ∈ analyze_local_client_results exRows, s.size_words = 100 :=
  ((aggregator_by_size_words_stats exRows).2.1 100).mp (by decide)

/-- C6: aggregation is order-independent — permuting the input record
sequence changes neither any group's count, mean, min or max of
`total_tokens`, nor the aggregator's overall output list. -/
theorem aggregation_order_independent (rows rows2 : List ResultRow)
    (h : rows.Perm rows2) :
    (∀ k : Nat, group_stats rows k = group_stats rows2 k)
    ∧ analyze_local_client_results rows = analyze_local_client_results rows2 := by
  have hg : ∀ k : Nat, group_stats rows k = group_stats rows2 k := by
    intro k
    have hp : (tokens_for_size rows k).Perm (tokens_for_size rows2 k) :=
      h.filterMap _
    unfold group_stats
    rw [hp.length_eq, hp.sum_eq, pymin_perm hp, pymax_perm hp]
  refine ⟨hg, ?_⟩
  have hkeys : sort_keys (size_keys rows) = sort_keys (size_keys rows2) := by
    have hperm : (size_keys rows).Perm (size_keys rows2) := (h.filterMap _).dedup
    exact List.eq_of_perm_of_sorted
      ((sort_keys_perm _).trans (hperm.trans (sort_keys_perm _).symm))
      (sort_keys_sorted _) (sort_keys_sorted _)
  unfold analyze_local_client_results
  rw [hkeys]
  exact List.map_congr_left fun k _ => hg k

/-- The permuted pair of rows witnessing C6. -/
def wRowA : ResultRow :=
  { status := "success", size_category := some "short",
    size_words := some 7, total_tokens := some 3 }

/-- Second row of the C6 witness input. -/
def wRowB : ResultRow :=
  { status := "timeout", size_category := some "long",
    size_words := some 9, total_tokens := none }

/-- Witness for C6 on a concrete two-record input and its transposition. -/
theorem aggregation_order_independent_witness :
    group_stats [wRowA, wRowB] 7 = group_stats [wRowB, wRowA] 7
      ∧ analyze_local_client_results [wRowA, wRowB]
          = analyze_local_client_results [wRowB, wRowA] :=
  ⟨(aggregation_order_independent [wRowA, wRowB] [wRowB, wRowA]
      (List.Perm.swap wRowB wRowA [])).1 7,
   (aggregation_order_independent [wRowA, wRowB] [wRowB, wRowA]
      (List.Perm.swap wRowB wRowA [])).2⟩

/-! ## The telemetry correlator (`analysis.py`, lines 94–125)

Timestamps are integers (e.g. nanoseconds since an epoch); the CSV's
`timestamp` column is `List (Option ℤ)`, where `none` is a row whose
date/time failed `pd.to_datetime(..., errors='coerce')` (pandas `NaT`).
Requests are pairs `(timestamp_send, timestamp_response)`. -/

/-- Pandas `Series.idxmin` with the default `skipna`: position and value of
the first occurrence of the minimum, skipping nulls; `none` when every entry
is null. -/
def idxminVal : List (Option ℤ) → Option (Nat × ℤ)
  | [] => none
  | none :: rest => (idxminVal rest).map (fun p => (p.1 + 1, p.2))
  | some v :: rest =>
      match idxminVal rest with
      | none => some (0, v)
      | some (j, m) => if v ≤ m then some (0, v) else some (j + 1, m)

/-- Lines 112–115: `(data_filtered['timestamp'] - req_time).abs().idxmin()`
guarded by `pd.notna(...).any()`, else `None`. -/
def csv_index (ts : List (Option ℤ)) (req : ℤ) : Option Nat :=
  if ts.any Option.isSome then
    (idxminVal (ts.map (Option.map (fun t => |t - req|)))).map Prod.fst
  else none

/-- Lines 118–120: the timestamp at the matched position, `None` when no
position was assigned. -/
def closest_csv_time (ts : List (Option ℤ)) (req : ℤ) : Option ℤ :=
  match csv_index ts req with
  | none => none
  | some i => ts.getD i none

/-- The value line 122 computes for one request *with an assigned match*:
the signed offset `timestamp_send - closest_csv_time`.  This per-entry view
is only meaningful when the match exists; the actual column-level operation,
which raises as soon as a request has no matched sample, is
`time_diff_column` below. -/
def time_diff_seconds (ts : List (Option ℤ)) (req : ℤ) : Option ℤ :=
  (closest_csv_time ts req).map (fun c => req - c)

/-- Line 122 as the column operation it is:
`(request_df['timestamp_send'] - request_df['closest_csv_time']).dt.total_seconds()`
subtracts the two columns pairwise.  Pandas has no `None`-tolerant branch
here: a datetime64 column minus an object column of `None`s raises (a
`TypeError` from `Timestamp - None`), so the offsets exist only when every
request has a matched sample.  The Python message quotes the type names; the
quotes are immaterial here. -/
def time_diff_column : List ℤ → List (Option ℤ) → Except String (List ℤ)
  | [], _ => Except.ok []
  | _ :: _, [] => Except.ok []
  | s :: ss, some c :: cs => (time_diff_column ss cs).map (fun ds => (s - c) :: ds)
  | _ :: _, none :: _ =>
      Except.error "TypeError: unsupported operand type(s) for -: Timestamp and NoneType"

/-- Lines 105–108: keep the rows whose timestamp lies in `[lo, hi]`.  Pandas
comparisons against `NaT` are `False`, so unparsed rows are dropped here. -/
def restrictWindow (ts : List (Option ℤ)) (lo hi : ℤ) : List (Option ℤ) :=
  ts.filter fun o =>
    match o with
    | some t => decide (lo ≤ t) && decide (t ≤ hi)
    | none => false

/-- Line 99: `request_df['timestamp_send'].min()` over a non-empty frame. -/
def first_json_timestamp (q : ℤ × ℤ) (qs : List (ℤ × ℤ)) : ℤ :=
  (qs.map Prod.fst).foldl min q.1

/-- Line 100: `request_df['timestamp_response'].max()`. -/
def last_json_timestamp (q : ℤ × ℤ) (qs : List (ℤ × ℤ)) : ℤ :=
  (qs.map Prod.snd).foldl max q.2

/-- The match-assignment part of the correlation block (lines 105–120,
guarded by `len(request_df) > 0`): restrict the CSV to the request window,
then give every request the timestamp of its nearest sample, paired with the
per-entry offset value of `time_diff_seconds`.  The offsets listed here are
realised by the program only when every request has a match; the full block
including line 122's fallible column assignment is `correlate_run` below. -/
def correlate (csv : List (Option ℤ)) (reqs : List (ℤ × ℤ)) :
    List (Option ℤ × Option ℤ) :=
  match reqs with
  | [] => []
  | q :: qs =>
      (q :: qs).map fun r =>
        (closest_csv_time
            (restrictWindow csv (first_json_timestamp q qs) (last_json_timestamp q qs)) r.1,
         time_diff_seconds
            (restrictWindow csv (first_json_timestamp q qs) (last_json_timestamp q qs)) r.1)

/-- The correlation block through line 122: assign each request its matched
sample time (lines 112–120, never failing), then compute the offset column
(line 122).  When the restricted series is empty every `closest_csv_time`
entry is `None` and the column subtraction raises, so the run aborts with an
unhandled exception instead of reporting null offsets. -/
def correlate_run (csv : List (Option ℤ)) (reqs : List (ℤ × ℤ)) :
    Except String (List (Option ℤ × ℤ)) :=
  match reqs with
  | [] => Except.ok []
  | q :: qs =>
      (time_diff_column ((q :: qs).map Prod.fst)
          ((q :: qs).map fun r => closest_csv_time
            (restrictWindow csv (first_json_timestamp q qs)
              (last_json_timestamp q qs)) r.1)).map
        (fun ds => List.zip
          ((q :: qs).map fun r => closest_csv_time
            (restrictWindow csv (first_json_timestamp q qs)
              (last_json_timestamp q qs)) r.1) ds)

/-- Ascending insertion for integer timestamps. -/
def insert_sorted_z (x : ℤ) : List ℤ → List ℤ
  | [] => [x]
  | y :: ys => if x ≤ y then x :: y :: ys else y :: insert_sorted_z x ys

/-- Ascending sort of a timestamp series. -/
def sort_z (l : List ℤ) : List ℤ := l.foldr insert_sorted_z []

/-- Follows the spec's words (§4.3): the nearest sample over the series
*sorted ascending by timestamp*, ties broken by first occurrence in sorted
order.  Written to be compared with the source-derived lookup, which takes
the series in its input order. -/
def spec_nearest_sorted (samples : List ℤ) (req : ℤ) : Option ℤ :=
  closest_csv_time ((sort_z samples).map some) req

/-- Follows the spec's words (§4.3): restrict, then sort the surviving
timestamps ascending before every lookup. -/
def correlate_sorted_spec (csv : List (Option ℤ)) (reqs : List (ℤ × ℤ)) :
    List (Option ℤ × Option ℤ) :=
  match reqs with
  | [] => []
  | q :: qs =>
      (q :: qs).map fun r =>
        (closest_csv_time
            ((sort_z ((restrictWindow csv (first_json_timestamp q qs)
                (last_json_timestamp q qs)).filterMap id)).map some) r.1,
         time_diff_seconds
            ((sort_z ((restrictWindow csv (first_json_timestamp q qs)
                (last_json_timestamp q qs)).filterMap id)).map some) r.1)

theorem idxminVal_eq_none {l : List (Option ℤ)} (h : idxminVal l = none) :
    ∀ o ∈ l, o = none := by
  induction l with
  | nil => simp
  | cons a rest ih =>
      intro o ho
      match a with
      | none =>
          rw [idxminVal] at h
          rcases List.mem_cons.mp ho with rfl | ho2
          · rfl
          · exact ih (by simpa using h) o ho2
      | some v =>
          rw [idxminVal] at h
          cases hrest : idxminVal rest with
          | none => rw [hrest] at h; simp at h
          | some p => rw [hrest] at h; rcases p with ⟨j, m⟩; by_cases hv : v ≤ m <;> simp [hv] at h

theorem idxminVal_spec {l : List (Option ℤ)} {i : Nat} {v : ℤ}
    (h : idxminVal l = some (i, v)) :
    l.get? i = some (some v)
    ∧ (∀ j : Nat, ∀ w : ℤ, l.get? j = some (some w) → v ≤ w)
    ∧ (∀ j : Nat, ∀ w : ℤ, j < i → l.get? j = some (some w) → v < w) := by
  induction l generalizing i v with
  | nil => simp [idxminVal] at h
  | cons a rest ih =>
      match a with
      | none =>
          rw [idxminVal] at h
          cases hrest : idxminVal rest with
          | none => rw [hrest] at h; simp at h
          | some p =>
              rcases p with ⟨j0, m⟩
              rw [hrest] at h
              have h2 : (some (j0 + 1, m) : Option (Nat × ℤ)) = some (i, v) := h
              obtain ⟨hi, hv⟩ : j0 + 1 = i ∧ m = v := by
                have h3 := Option.some_inj.mp h2
                exact ⟨congrArg Prod.fst h3, congrArg Prod.snd h3⟩
              subst hi
              subst hv
              obtain ⟨hget, hle, hlt⟩ := ih hrest
              refine ⟨hget, ?_, ?_⟩
              · intro j w hj
                match j with
                | 0 =>
                    have h4 : (some (none : Option ℤ)) = some (some w) := hj
                    simp at h4
                | j + 1 => exact hle j w hj
              · intro j w hj hjw
                match j with
                | 0 =>
                    have h4 : (some (none : Option ℤ)) = some (some w) := hjw
                    simp at h4
                | j + 1 => exact hlt j w (Nat.lt_of_succ_lt_succ hj) hjw
      | some v0 =>
          rw [idxminVal] at h
          cases hrest : idxminVal rest with
          | none =>
              rw [hrest] at h
              obtain ⟨hi, hv⟩ : 0 = i ∧ v0 = v := by
                have := Option.some_inj.mp h
                exact ⟨congrArg Prod.fst this, congrArg Prod.snd this⟩
              subst hi
              subst hv
              refine ⟨rfl, ?_, ?_⟩
              · intro j w hj
                match j with
                | 0 =>
                    have : v0 = w := by simpa using hj
                    exact le_of_eq this
                | j + 1 =>
                    have : (some w : Option ℤ) ∈ rest := by
                      have hg : rest.get? j = some (some w) := hj
                      exact List.get?_mem hg
                    have := idxminVal_eq_none hrest _ this
                    simp at this
              · intro j w hj
                exact absurd hj (Nat.not_lt_zero j)
          | some p =>
              rcases p with ⟨j0, m⟩
              rw [hrest] at h
              have h2 : (if v0 ≤ m then some (0, v0) else some (j0 + 1, m))
                  = some (i, v) := h
              obtain ⟨hget, hle, hlt⟩ := ih hrest
              by_cases hvm : v0 ≤ m
              · rw [if_pos hvm] at h2
                obtain ⟨hi, hv⟩ : 0 = i ∧ v0 = v := by
                  have h3 := Option.some_inj.mp h2
                  exact ⟨congrArg Prod.fst h3, congrArg Prod.snd h3⟩
                subst hi
                subst hv
                refine ⟨rfl, ?_, ?_⟩
                · intro j w hj
                  match j with
                  | 0 =>
                      have : v0 = w := by simpa using hj
                      exact le_of_eq this
                  | j + 1 => exact le_trans hvm (hle j w hj)
                · intro j w hj
                  exact absurd hj (Nat.not_lt_zero j)
              · rw [if_neg hvm] at h2
                obtain ⟨hi, hv⟩ : j0 + 1 = i ∧ m = v := by
                  have h3 := Option.some_inj.mp h2
                  exact ⟨congrArg Prod.fst h3, congrArg Prod.snd h3⟩
                subst hi
                subst hv
                refine ⟨hget, ?_, ?_⟩
                · intro j w hj
                  match j with
                  | 0 =>
                      have hw : v0 = w := by simpa using hj
                      exact le_of_lt (hw ▸ lt_of_not_le hvm)
                  | j + 1 => exact hle j w hj
                · intro j w hj hjw
                  match j with
                  | 0 =>
                      have hw : v0 = w := by simpa using hjw
                      exact hw ▸ lt_of_not_le hvm
                  | j + 1 => exact hlt j w (Nat.lt_of_succ_lt_succ hj) hjw

theorem getD_some_mem {ts : List (Option ℤ)} {i : Nat} {t : ℤ}
    (h : ts.getD i none = some t) : some t ∈ ts := by
  rw [List.getD_eq_get? ts i none] at h
  cases hg : ts.get? i with
  | none => rw [hg] at h; simp at h
  | some o =>
      rw [hg] at h
      simp only [Option.getD_some] at h
      exact h ▸ List.get?_mem hg

theorem closest_csv_time_mem {ts : List (Option ℤ)} {req t : ℤ}
    (h : closest_csv_time ts req = some t) : some t ∈ ts := by
  unfold closest_csv_time at h
  cases hc : csv_index ts req with
  | none => rw [hc] at h; simp at h
  | some i => rw [hc] at h; exact getD_some_mem h

/-- C2 counterexample: on the unsorted restricted series `[30, 10]` with a
request sent at 20, both samples are 10 away; the code's lookup matches the
first occurrence in *input* order (30), not the first occurrence in sorted
order (10) that the claim requires. -/
theorem nearest_tie_break_counterexample :
    closest_csv_time [some 30, some 10] 20 = some 30
    ∧ spec_nearest_sorted [30, 10] 20 = some 10
    ∧ closest_csv_time [some 30, some 10] 20 ≠ spec_nearest_sorted [30, 10] 20 := by
  refine ⟨by decide, by decide, by decide⟩

/-- C2 (amended): the lookup matches the sample minimising the absolute
difference to the request's send time, ties broken by first occurrence in
the series' *input* order (which coincides with sorted order only when the
restricted series is sorted ascending), and records the signed offset
`send_time - matched_sample_time`; for samples `[10, 20, 30]` and a request
sent at 21 the matched sample is 20 and the offset is +1. -/
theorem nearest_lookup_input_order :
    (closest_csv_time [some 10, some 20, some 30] 21 = some 20
      ∧ time_diff_seconds [some 10, some 20, some 30] 21 = some 1)
    ∧ ∀ ts : List ℤ, ∀ req : ℤ, ∀ i : Nat,
        csv_index (ts.map some) req = some i
        → ∃ t : ℤ, ts.get? i = some t
            ∧ (∀ u ∈ ts, |t - req| ≤ |u - req|)
            ∧ (∀ j : Nat, ∀ u : ℤ, j < i → ts.get? j = some u → |t - req| < |u - req|)
            ∧ closest_csv_time (ts.map some) req = some t
            ∧ time_diff_seconds (ts.map some) req = some (req - t) := by
  refine ⟨⟨by decide, by decide⟩, ?_⟩
  intro ts req i h
  have hidx : (idxminVal ((ts.map some).map (Option.map fun t => |t - req|))).map Prod.fst
      = some i := by
    unfold csv_index at h
    by_cases hg : (ts.map some).any Option.isSome
    · rwa [if_pos hg] at h
    · rw [if_neg hg] at h
      exact absurd h (by simp)
  obtain ⟨p, hp, hpi⟩ := Option.map_eq_some'.mp hidx
  rcases p with ⟨i2, v⟩
  have hii : i2 = i := hpi
  subst hii
  obtain ⟨hget, hle, hlt⟩ := idxminVal_spec hp
  have hM : ∀ j : Nat,
      ((ts.map some).map (Option.map fun t => |t - req|)).get? j
        = (ts.get? j).map (fun t => some |t - req|) := by
    intro j
    rw [List.get?_map, List.get?_map]
    cases ts.get? j <;> rfl
  rw [hM i2] at hget
  cases hti : ts.get? i2 with
  | none => rw [hti] at hget; simp at hget
  | some t =>
      rw [hti] at hget
      have hv : v = |t - req| := by
        have h5 : (some (some |t - req|) : Option (Option ℤ)) = some (some v) := hget
        exact (Option.some_inj.mp (Option.some_inj.mp h5)).symm
      subst hv
      have hclose : closest_csv_time (ts.map some) req = some t := by
        unfold closest_csv_time
        rw [h]
        show (ts.map some).getD i2 none = some t
        rw [List.getD_eq_get? (ts.map some) i2 none, List.get?_map, hti]
        rfl
      refine ⟨t, rfl, ?_, ?_, hclose, ?_⟩
      · intro u hu
        obtain ⟨j, hj⟩ := List.mem_iff_get?.mp hu
        exact hle j (|u - req|) (by rw [hM j, hj]; rfl)
      · intro j u hj hju
        exact hlt j (|u - req|) hj (by rw [hM j, hju]; rfl)
      · unfold time_diff_seconds
        rw [hclose]
        rfl

/-- Witness for C2's amended theorem at the spec's own example. -/
theorem nearest_lookup_input_order_witness :
    ∃ t : ℤ, [(10 : ℤ), 20, 30].get? 1 = some t
      ∧ (∀ u ∈ [(10 : ℤ), 20, 30], |t - 21| ≤ |u - 21|)
      ∧ (∀ j : Nat, ∀ u : ℤ, j < 1 → [(10 : ℤ), 20, 30].get? j = some u
          → |t - 21| < |u - 21|)
      ∧ closest_csv_time ([(10 : ℤ), 20, 30].map some) 21 = some t
      ∧ time_diff_seconds ([(10 : ℤ), 20, 30].map some) 21 = some (21 - t) :=
  nearest_lookup_input_order.2 [10, 20, 30] 21 1 (by decide)

/-- C3 counterexample: with CSV timestamps `[5, 1]` (unsorted) and requests
`(0, 10)` and `(3, 10)`, the restricted series is `[5, 1]` unchanged; the
request sent at 3 ties (both samples 2 away) and the code matches 5 (first
in input order), while the spec's sort-before-lookup contract would match 1 —
so the correlator does not sort the series before its lookups. -/
theorem correlator_unsorted_counterexample :
    correlate [some 5, some 1] [(0, 10), (3, 10)]
        = [(some 1, some (-1)), (some 5, some (-2))]
    ∧ correlate_sorted_spec [some 5, some 1] [(0, 10), (3, 10)]
        = [(some 1, some (-1)), (some 1, some 2)]
    ∧ correlate [some 5, some 1] [(0, 10), (3, 10)]
        ≠ correlate_sorted_spec [some 5, some 1] [(0, 10), (3, 10)] := by
  refine ⟨by decide, by decide, by decide⟩

/-- C3 (amended): the correlator accepts the telemetry series in any input
order and performs its nearest lookups directly on the restricted series in
its original order (no internal sort); the restriction keeps exactly the
parseable timestamps in the closed interval
`[min over records of timestamp_send, max over records of
timestamp_response]`, as an order-preserving sublist of the input, and every
matched sample is a sample of the input series lying in that interval. -/
theorem correlator_restriction_window (csv : List (Option ℤ)) (q : ℤ × ℤ)
    (qs : List (ℤ × ℤ)) :
    (restrictWindow csv (first_json_timestamp q qs) (last_json_timestamp q qs)).Sublist csv
    ∧ (∀ o ∈ restrictWindow csv (first_json_timestamp q qs) (last_json_timestamp q qs),
        ∃ t : ℤ, o = some t ∧ first_json_timestamp q qs ≤ t
          ∧ t ≤ last_json_timestamp q qs)
    ∧ (∀ pair ∈ correlate csv (q :: qs), ∀ t : ℤ, pair.1 = some t
        → some t ∈ csv ∧ first_json_timestamp q qs ≤ t
          ∧ t ≤ last_json_timestamp q qs) := by
  have hwin : ∀ o ∈ restrictWindow csv (first_json_timestamp q qs) (last_json_timestamp q qs),
      ∃ t : ℤ, o = some t ∧ first_json_timestamp q qs ≤ t
        ∧ t ≤ last_json_timestamp q qs := by
    intro o ho
    have hmem := List.mem_filter.mp ho
    rcases o with _ | t
    · have hb : (false : Bool) = true := hmem.2
      simp at hb
    · have hb : (decide (first_json_timestamp q qs ≤ t)
          && decide (t ≤ last_json_timestamp q qs)) = true := hmem.2
      simp only [Bool.and_eq_true, decide_eq_true_eq] at hb
      exact ⟨t, rfl, hb.1, hb.2⟩
  refine ⟨List.filter_sublist csv, hwin, ?_⟩
  intro pair hpair t hpt
  rw [correlate] at hpair
  obtain ⟨r, hr, hre⟩ := List.mem_map.mp hpair
  rw [← hre] at hpt
  have hmem : some t ∈ restrictWindow csv (first_json_timestamp q qs)
      (last_json_timestamp q qs) := closest_csv_time_mem hpt
  obtain ⟨t2, ht2, hlo, hhi⟩ := hwin (some t) hmem
  have htt : t2 = t := Option.some_inj.mp ht2.symm
  subst htt
  exact ⟨(List.filter_sublist csv).subset hmem, hlo, hhi⟩

/-- Witness for C3's amended theorem on a concrete unsorted series: the
request sent at 0 matches the in-window sample 1 of the input series. -/
theorem correlator_restriction_window_witness :
    some (1 : ℤ) ∈ [some (5 : ℤ), some 1, none, some 90]
      ∧ first_json_timestamp ((0 : ℤ), (10 : ℤ)) [] ≤ 1
      ∧ (1 : ℤ) ≤ last_json_timestamp ((0 : ℤ), (10 : ℤ)) [] :=
  (correlator_restriction_window [some 5, some 1, none, some 90]
    ((0 : ℤ), (10 : ℤ)) []).2.2 (some 1, some (-1)) (by decide) 1 rfl

/-- C4 counterexample: a CSV holding one out-of-window row and one
unparsable row leaves the restriction for the single request `(0, 1)` empty;
the match columns are assigned `None` without error, but line 122's offset
column then subtracts `Timestamp - None` and raises, so the run aborts with
an unhandled exception instead of tolerating the empty restriction. -/
theorem correlator_empty_restriction_counterexample :
    restrictWindow [some 100, none]
        (first_json_timestamp ((0 : ℤ), (1 : ℤ)) [])
        (last_json_timestamp ((0 : ℤ), (1 : ℤ)) []) = []
    ∧ correlate_run [some 100, none] [((0 : ℤ), (1 : ℤ))]
        = Except.error
            "TypeError: unsupported operand type(s) for -: Timestamp and NoneType" := by
  exact ⟨rfl, rfl⟩

/-- C4 (amended): a CSV row whose timestamp failed to parse (pandas `NaT`)
is excluded by the window restriction — it can never be matched and never
aborts the run — and when the restricted series is empty every request's
*match* is indeed assigned no sample (`None`) without error; but the
subsequent offset-column computation (line 122) then raises an unhandled
exception, so the run aborts rather than reporting null offsets. -/
theorem correlator_malformed_excluded_empty_aborts (csv : List (Option ℤ))
    (lo hi : ℤ) (q : ℤ × ℤ) (qs : List (ℤ × ℤ)) :
    none ∉ restrictWindow csv lo hi
    ∧ (∀ req : ℤ, csv_index [] req = none ∧ closest_csv_time [] req = none)
    ∧ (restrictWindow csv (first_json_timestamp q qs) (last_json_timestamp q qs) = []
        → correlate_run csv (q :: qs)
            = Except.error
                "TypeError: unsupported operand type(s) for -: Timestamp and NoneType") := by
  refine ⟨?_, fun req => ⟨rfl, rfl⟩, ?_⟩
  · intro hmem
    have hb : (false : Bool) = true := (List.mem_filter.mp hmem).2
    simp at hb
  · intro hempty
    rw [correlate_run]
    have h1 : ∀ req : ℤ, closest_csv_time [] req = none := fun _ => rfl
    simp only [hempty, h1, List.map_cons]
    rfl

/-- Witness for C4's amended theorem: the concrete empty-restriction run
aborts with the `TypeError`. -/
theorem correlator_malformed_excluded_empty_aborts_witness :
    correlate_run [some 100, none, some 7] [((2 : ℤ), (3 : ℤ))]
      = Except.error
          "TypeError: unsupported operand type(s) for -: Timestamp and NoneType" :=
  (correlator_malformed_excluded_empty_aborts [some 100, none, some 7] 0 0
    ((2 : ℤ), (3 : ℤ)) []).2.2 (by decide)

end LLMSE
